import Mathlib

/-!
Verification of the Fay EventManager observer-pattern library
(single header `include/EventManager.h`).

The manager stores `IBaseObserver*` handles in a container (`std::vector` by
default) and offers three operations, all guarded by one mutex:

* `Subscribe(observer)` — `mObservers.push_back(observer)`;
* `Unsubscribe(observer)` — linear scan, `erase` of the first iterator whose
  pointee compares equal to `observer`, then an early `return`;
* `Dispatch(event : T)` — linear scan; for each stored pointer a
  `dynamic_cast<IObserver<T>*>` is attempted and, when it succeeds, the
  observer's `OnEvent(event)` is called.

Shallow embedding used below:

* a handle (`IBaseObserver*`, compared by pointer identity) is a `Nat`;
* a C++ event type's runtime identity is a `Nat` (`EventType`); two
  structurally identical but distinct C++ types get distinct identities,
  because `dynamic_cast` keys on type identity, not structure;
* an event value is its type identity plus a payload;
* the result of the `dynamic_cast` capability test is an environment
  `caps : Handle → EventType → Bool`, fixed for the whole run because a C++
  object's dynamic type (hence its `Observer<Args...>` capability set) is
  fixed at construction;
* the observable behaviour of a dispatch is the ordered list of `OnEvent`
  invocations it performs;
* the mutex serialises the three operations, so a whole-program run is a
  sequence of atomic commands threaded through the manager state
  (`runFrom` below).  The lock itself (including `NullMutex`) is not
  modelled further.
-/

namespace Fay

/-- Runtime identity of one C++ event type (the key `dynamic_cast` checks). -/
abbrev EventType := Nat

/-- Pointer identity of one observer (`IBaseObserver*`). -/
abbrev Handle := Nat

/-- An event value: the runtime identity of its C++ type plus its payload
(the field contents, e.g. `IntEvent.Value`). -/
structure Event where
  etype : EventType
  payload : Int
  deriving DecidableEq, Repr

/-- One `observer->OnEvent(event)` call performed by `Dispatch`. -/
structure Invocation where
  observer : Handle
  event : Event
  deriving DecidableEq, Repr

/-- `BaseEventManager::Subscribe`: `mObservers.push_back(observer)` under the
lock. -/
def Subscribe (mObservers : List Handle) (observer : Handle) : List Handle :=
  mObservers ++ [observer]

/-- `BaseEventManager::Unsubscribe`: scan `mObservers` from the front; at the
first entry equal to `observer`, erase it and return. -/
def Unsubscribe (mObservers : List Handle) (observer : Handle) : List Handle :=
  match mObservers with
  | [] => []
  | x :: rest => if x = observer then rest else x :: Unsubscribe rest observer

/-- `BaseEventManager::Dispatch(const T&)`: scan `mObservers`; for each stored
pointer attempt `dynamic_cast<IObserver<T>*>` (the `caps` environment); on
success call `OnEvent(event)`.  The returned list is the ordered trace of the
`OnEvent` calls the dispatch performs. -/
def Dispatch (caps : Handle → EventType → Bool) (mObservers : List Handle)
    (event : Event) : List Invocation :=
  match mObservers with
  | [] => []
  | ptr :: rest =>
      if caps ptr event.etype then
        ⟨ptr, event⟩ :: Dispatch caps rest event
      else
        Dispatch caps rest event

/-- `BaseEventManager::Dispatch(T&&)`: the r-value overload, which casts the
event to `const T&` and calls the const-reference overload. -/
def DispatchRValue (caps : Handle → EventType → Bool) (mObservers : List Handle)
    (event : Event) : List Invocation :=
  Dispatch caps mObservers event

/-- One external call on the manager. -/
inductive Cmd where
  | subscribe (observer : Handle)
  | unsubscribe (observer : Handle)
  | dispatch (event : Event)
  deriving DecidableEq, Repr

/-- Whether a command is one of the two collection-mutating operations. -/
def Cmd.mutates : Cmd → Bool
  | .subscribe _ => true
  | .unsubscribe _ => true
  | .dispatch _ => false

/-- Run a sequence of calls on a manager whose collection currently holds
`mObservers`; the mutex makes each call atomic, so the calls are threaded
sequentially.  Returns the final collection and the concatenated trace of all
`OnEvent` invocations. -/
def runFrom (caps : Handle → EventType → Bool) :
    List Handle → List Cmd → List Handle × List Invocation
  | mObservers, [] => (mObservers, [])
  | mObservers, Cmd.subscribe h :: rest =>
      runFrom caps (Subscribe mObservers h) rest
  | mObservers, Cmd.unsubscribe h :: rest =>
      runFrom caps (Unsubscribe mObservers h) rest
  | mObservers, Cmd.dispatch e :: rest =>
      ((runFrom caps mObservers rest).1,
        Dispatch caps mObservers e ++ (runFrom caps mObservers rest).2)

/-- Run a sequence of calls on a freshly constructed (empty) manager. -/
def run (caps : Handle → EventType → Bool) (cmds : List Cmd) :
    List Handle × List Invocation :=
  runFrom caps [] cmds

/-- Number of `OnEvent` calls a trace delivers to the observer `h`. -/
def obsCount (h : Handle) (tr : List Invocation) : Nat :=
  tr.countP (fun inv => inv.observer == h)

/-- Capability environment of the bundled example (`example.cpp`): handles
`1` and `2` are `MyObserver`-style observers capable of `IntEvent` (identity
`0`) and `FloatEvent` (identity `1`) but not of `DoubleEvent` (identity `2`). -/
def exCaps : Handle → EventType → Bool :=
  fun h t => (h == 1 || h == 2) && (t == 0 || t == 1)

/-! ### Helper lemmas -/

theorem obsCount_nil (h : Handle) : obsCount h [] = 0 := rfl

theorem obsCount_cons (h : Handle) (inv : Invocation) (tr : List Invocation) :
    obsCount h (inv :: tr) =
      obsCount h tr + if inv.observer = h then 1 else 0 := by
  simp [obsCount, List.countP_cons]

theorem obsCount_dispatch (caps : Handle → EventType → Bool)
    (mObservers : List Handle) (e : Event) (h : Handle) :
    obsCount h (Dispatch caps mObservers e) =
      if caps h e.etype then mObservers.count h else 0 := by
  induction mObservers with
  | nil => simp [Dispatch, obsCount]
  | cons p rest ih =>
    by_cases hph : p = h
    · subst hph
      cases hcap : caps p e.etype <;>
        simp [Dispatch, hcap, obsCount_cons, List.count_cons, ih]
    · cases hcap : caps p e.etype <;>
        simp [Dispatch, hcap, obsCount_cons, List.count_cons, hph, ih]

theorem dispatch_append (caps : Handle → EventType → Bool)
    (a b : List Handle) (e : Event) :
    Dispatch caps (a ++ b) e = Dispatch caps a e ++ Dispatch caps b e := by
  induction a with
  | nil => simp [Dispatch]
  | cons p rest ih =>
    cases hcap : caps p e.etype <;> simp [Dispatch, hcap, ih]

theorem mem_dispatch (caps : Handle → EventType → Bool)
    {mObservers : List Handle} {e : Event} {h : Handle}
    (hmem : h ∈ mObservers) (hcap : caps h e.etype = true) :
    Invocation.mk h e ∈ Dispatch caps mObservers e := by
  induction mObservers with
  | nil => cases hmem
  | cons p rest ih =>
    rcases List.mem_cons.mp hmem with rfl | hmem
    · simp [Dispatch, hcap]
    · cases hcap2 : caps p e.etype <;> simp [Dispatch, hcap2, ih hmem]

theorem of_mem_dispatch (caps : Handle → EventType → Bool)
    {mObservers : List Handle} {e : Event} {inv : Invocation}
    (hmem : inv ∈ Dispatch caps mObservers e) :
    inv.observer ∈ mObservers ∧ caps inv.observer e.etype = true ∧
      inv.event = e := by
  induction mObservers with
  | nil => cases hmem
  | cons p rest ih =>
    by_cases hcap : caps p e.etype
    · rw [Dispatch] at hmem
      simp only [hcap, if_true] at hmem
      rcases List.mem_cons.mp hmem with rfl | hmem
      · exact ⟨List.mem_cons_self _ _, hcap, rfl⟩
      · rcases ih hmem with ⟨h1, h2, h3⟩
        exact ⟨List.mem_cons_of_mem _ h1, h2, h3⟩
    · rw [Dispatch] at hmem
      simp only [hcap] at hmem
      rw [if_neg (by simp [hcap])] at hmem
      rcases ih hmem with ⟨h1, h2, h3⟩
      exact ⟨List.mem_cons_of_mem _ h1, h2, h3⟩

theorem unsubscribe_not_mem {s : List Handle} {h : Handle} (hn : h ∉ s) :
    Unsubscribe s h = s := by
  induction s with
  | nil => rfl
  | cons x rest ih =>
    have hx : x ≠ h := fun hx => hn (by rw [← hx]; exact List.mem_cons_self x rest)
    rw [Unsubscribe, if_neg hx, ih (fun hm => hn (List.mem_cons_of_mem x hm))]

theorem unsubscribe_first {a : List Handle} (b : List Handle) {h : Handle}
    (hn : h ∉ a) : Unsubscribe (a ++ h :: b) h = a ++ b := by
  induction a with
  | nil => simp [Unsubscribe]
  | cons x rest ih =>
    have hx : x ≠ h := fun hx => hn (by rw [← hx]; exact List.mem_cons_self x rest)
    have hrest : h ∉ rest := fun hm => hn (List.mem_cons_of_mem x hm)
    simp [Unsubscribe, hx, ih hrest]

theorem count_unsubscribe {s : List Handle} {h : Handle} (hmem : h ∈ s) :
    (Unsubscribe s h).count h + 1 = s.count h := by
  induction s with
  | nil => cases hmem
  | cons x rest ih =>
    by_cases hx : x = h
    · subst hx
      simp [Unsubscribe, List.count_cons]
    · rcases List.mem_cons.mp hmem with rfl | hmem
      · exact absurd rfl hx
      · simp [Unsubscribe, hx, List.count_cons, ih hmem]

theorem runFrom_fst_filter (caps : Handle → EventType → Bool)
    (cmds : List Cmd) :
    ∀ mObservers, (runFrom caps mObservers cmds).1 =
      (runFrom caps mObservers (cmds.filter Cmd.mutates)).1 := by
  induction cmds with
  | nil => intro obs; rfl
  | cons c rest ih =>
    intro obs
    cases c with
    | subscribe h => simp [runFrom, List.filter, Cmd.mutates, ih]
    | unsubscribe h => simp [runFrom, List.filter, Cmd.mutates, ih]
    | dispatch e => simp [runFrom, List.filter, Cmd.mutates, ih]

/-! ### Claim theorems -/

/-- C1: over every sequence of Subscribe/Unsubscribe/Dispatch calls, a handler
capable of the dispatched event's type that is subscribed (present once in the
collection) at the time of a Dispatch receives exactly one `OnEvent` call from
that Dispatch, and a handler is never invoked for an event type outside its
declared capability set. -/
theorem dispatch_invokes_capable_subscriber_exactly_once
    (caps : Handle → EventType → Bool) (cmds : List Cmd) (e : Event)
    (h : Handle) :
    (caps h e.etype = true → ((run caps cmds).1).count h = 1 →
      obsCount h (Dispatch caps (run caps cmds).1 e) = 1) ∧
    (caps h e.etype = false →
      obsCount h (Dispatch caps (run caps cmds).1 e) = 0) := by
  constructor
  · intro hc hcount
    rw [obsCount_dispatch, if_pos hc, hcount]
  · intro hc
    rw [obsCount_dispatch, if_neg (by simp [hc])]

/-- Witness for C1 at the example's capability table. -/
theorem dispatch_invokes_capable_subscriber_exactly_once_witness :
    obsCount 1 (Dispatch exCaps (run exCaps [Cmd.subscribe 1]).1 ⟨0, 1⟩) = 1 ∧
    obsCount 1 (Dispatch exCaps (run exCaps [Cmd.subscribe 1]).1 ⟨2, 5⟩) = 0 :=
  ⟨(dispatch_invokes_capable_subscriber_exactly_once exCaps
      [Cmd.subscribe 1] ⟨0, 1⟩ 1).1 (by decide) (by decide),
   (dispatch_invokes_capable_subscriber_exactly_once exCaps
      [Cmd.subscribe 1] ⟨2, 5⟩ 1).2 (by decide)⟩

/-- C2: if handler `A` was subscribed strictly before `B` (the collection
splits as `u ++ A :: v ++ B :: w`), both capable of the event's type, then the
Dispatch trace splits so that `A` is invoked before `B`; moreover the scan
visits the full collection: every capable subscribed handler appears in the
trace, with no early termination after the first match. -/
theorem dispatch_preserves_subscription_order_and_scans_all
    (caps : Handle → EventType → Bool) (cmds : List Cmd) (e : Event)
    (A B : Handle) (u v w : List Handle)
    (hs : (run caps cmds).1 = u ++ A :: v ++ B :: w)
    (hA : caps A e.etype = true) (hB : caps B e.etype = true) :
    (∃ t1 t2, Dispatch caps (run caps cmds).1 e = t1 ++ t2 ∧
        Invocation.mk A e ∈ t1 ∧ Invocation.mk B e ∈ t2) ∧
    ∀ hnd ∈ (run caps cmds).1, caps hnd e.etype = true →
      Invocation.mk hnd e ∈ Dispatch caps (run caps cmds).1 e := by
  constructor
  · refine ⟨Dispatch caps (u ++ A :: v) e, Dispatch caps (B :: w) e, ?_, ?_, ?_⟩
    · rw [hs]
      have hsplit : u ++ A :: v ++ B :: w = (u ++ A :: v) ++ B :: w := by simp
      rw [hsplit, dispatch_append]
    · exact mem_dispatch caps (by simp) hA
    · exact mem_dispatch caps (List.mem_cons_self _ _) hB
  · intro hnd hmem hcap
    exact mem_dispatch caps hmem hcap

/-- Witness for C2: two capable observers subscribed in order `1`, `2`. -/
theorem dispatch_preserves_subscription_order_and_scans_all_witness :
    (∃ t1 t2,
      Dispatch exCaps (run exCaps [Cmd.subscribe 1, Cmd.subscribe 2]).1 ⟨0, 7⟩
          = t1 ++ t2 ∧
        Invocation.mk 1 ⟨0, 7⟩ ∈ t1 ∧ Invocation.mk 2 ⟨0, 7⟩ ∈ t2) ∧
    ∀ hnd ∈ (run exCaps [Cmd.subscribe 1, Cmd.subscribe 2]).1,
      exCaps hnd 0 = true →
        Invocation.mk hnd ⟨0, 7⟩ ∈
          Dispatch exCaps (run exCaps [Cmd.subscribe 1, Cmd.subscribe 2]).1
            ⟨0, 7⟩ :=
  dispatch_preserves_subscription_order_and_scans_all exCaps
    [Cmd.subscribe 1, Cmd.subscribe 2] ⟨0, 7⟩ 1 2 [] [] [] rfl rfl rfl

/-- C3: Unsubscribe removes exactly the first (earliest-inserted) entry equal
to the handle, leaving all other entries and their relative order unchanged;
with no matching entry it is a silent no-op. -/
theorem unsubscribe_removes_first_match_only (s : List Handle) (h : Handle) :
    (∀ a b, s = a ++ h :: b → h ∉ a → Unsubscribe s h = a ++ b) ∧
    (h ∉ s → Unsubscribe s h = s) := by
  constructor
  · intro a b hs hn
    rw [hs]
    exact unsubscribe_first b hn
  · exact unsubscribe_not_mem

/-- Witness for C3: duplicate handle — only the earliest occurrence goes. -/
theorem unsubscribe_removes_first_match_only_witness :
    Unsubscribe [1, 2, 1] 1 = [2, 1] ∧ Unsubscribe [2, 3] 1 = [2, 3] :=
  ⟨(unsubscribe_removes_first_match_only [1, 2, 1] 1).1 [] [2, 1] rfl
      (by decide),
   (unsubscribe_removes_first_match_only [2, 3] 1).2 (by decide)⟩

/-- C4: Subscribe appends the handle at the end of the collection, never
rejects or deduplicates, and leaves all previously stored entries and their
order unchanged; duplicates each add one more copy. -/
theorem subscribe_appends_without_dedup (s : List Handle) (h h' : Handle) :
    (Subscribe s h).length = s.length + 1 ∧
    (Subscribe s h).take s.length = s ∧
    (Subscribe s h).getLast? = some h ∧
    (Subscribe s h).count h = s.count h + 1 ∧
    (h' ≠ h → (Subscribe s h).count h' = s.count h') := by
  refine ⟨by simp [Subscribe], ?_, by simp [Subscribe], by simp [Subscribe], ?_⟩
  · rw [Subscribe]
    exact List.take_left s [h]
  · intro hne
    simp [Subscribe, hne]

/-- Witness for C4: an already-present handle is appended again, and counts of
other handles are untouched. -/
theorem subscribe_appends_without_dedup_witness :
    (Subscribe [1] 2).count 3 = ([1] : List Handle).count 3 :=
  (subscribe_appends_without_dedup [1] 2 3).2.2.2.2 (by decide)

/-- C5: a handler capable of exactly the two types `t1` and `t2` is invoked by
dispatches of `t1` events and of `t2` events, and never by a dispatch of an
unrelated type `t3`, even when the `t3` event carries the same payload as the
`t1` event: matching keys on runtime type identity, not structure. -/
theorem dispatch_multi_capability_isolation
    (caps : Handle → EventType → Bool) (s : List Handle) (h : Handle)
    (t1 t2 t3 : EventType) (v1 v2 : Int)
    (h1 : caps h t1 = true) (h2 : caps h t2 = true) (h3 : caps h t3 = false)
    (hmem : h ∈ s) :
    Invocation.mk h ⟨t1, v1⟩ ∈ Dispatch caps s ⟨t1, v1⟩ ∧
    Invocation.mk h ⟨t2, v2⟩ ∈ Dispatch caps s ⟨t2, v2⟩ ∧
    ∀ inv ∈ Dispatch caps s ⟨t3, v1⟩, inv.observer ≠ h := by
  refine ⟨mem_dispatch caps hmem h1, mem_dispatch caps hmem h2, ?_⟩
  intro inv hinv heq
  have hcap := (of_mem_dispatch caps hinv).2.1
  rw [heq] at hcap
  have h3' : caps h t3 = true := hcap
  rw [h3] at h3'
  exact Bool.noConfusion h3'

/-- Witness for C5 at the example's types: `IntEvent` (0), `FloatEvent` (1),
`DoubleEvent` (2), the last with the same payload as the first. -/
theorem dispatch_multi_capability_isolation_witness :
    Invocation.mk 1 ⟨0, 5⟩ ∈ Dispatch exCaps [1] ⟨0, 5⟩ ∧
    Invocation.mk 1 ⟨1, 7⟩ ∈ Dispatch exCaps [1] ⟨1, 7⟩ ∧
    ∀ inv ∈ Dispatch exCaps [1] ⟨2, 5⟩, inv.observer ≠ 1 :=
  dispatch_multi_capability_isolation exCaps [1] 1 0 1 2 5 7
    (by decide) (by decide) (by decide) (by decide)

/-- C6: a handle subscribed twice (count 2 in the collection reached by any
call sequence) is invoked exactly twice per capable Dispatch; one Unsubscribe
leaves one copy and one invocation per Dispatch; a second Unsubscribe removes
the last copy and ends the invocations. -/
theorem duplicate_subscription_double_invocation
    (caps : Handle → EventType → Bool) (cmds : List Cmd) (h : Handle)
    (e : Event) (hcount : ((run caps cmds).1).count h = 2)
    (hcap : caps h e.etype = true) :
    obsCount h (Dispatch caps (run caps cmds).1 e) = 2 ∧
    (Unsubscribe (run caps cmds).1 h).count h = 1 ∧
    obsCount h (Dispatch caps (Unsubscribe (run caps cmds).1 h) e) = 1 ∧
    (Unsubscribe (Unsubscribe (run caps cmds).1 h) h).count h = 0 ∧
    obsCount h
      (Dispatch caps (Unsubscribe (Unsubscribe (run caps cmds).1 h) h) e)
        = 0 := by
  set s := (run caps cmds).1 with hsdef
  have hmem : h ∈ s := List.count_pos_iff.mp (by omega)
  have c1 : (Unsubscribe s h).count h = 1 := by
    have := count_unsubscribe hmem
    omega
  have hmem1 : h ∈ Unsubscribe s h := List.count_pos_iff.mp (by omega)
  have c2 : (Unsubscribe (Unsubscribe s h) h).count h = 0 := by
    have := count_unsubscribe hmem1
    omega
  refine ⟨?_, c1, ?_, c2, ?_⟩ <;>
    · rw [obsCount_dispatch, if_pos hcap]
      omega

/-- Witness for C6: handle 1 subscribed twice around handle 2. -/
theorem duplicate_subscription_double_invocation_witness :
    obsCount 1 (Dispatch exCaps
      (run exCaps [Cmd.subscribe 1, Cmd.subscribe 2, Cmd.subscribe 1]).1
      ⟨0, 3⟩) = 2 ∧
    (Unsubscribe
      (run exCaps [Cmd.subscribe 1, Cmd.subscribe 2, Cmd.subscribe 1]).1
      1).count 1 = 1 ∧
    obsCount 1 (Dispatch exCaps (Unsubscribe
      (run exCaps [Cmd.subscribe 1, Cmd.subscribe 2, Cmd.subscribe 1]).1
      1) ⟨0, 3⟩) = 1 ∧
    (Unsubscribe (Unsubscribe
      (run exCaps [Cmd.subscribe 1, Cmd.subscribe 2, Cmd.subscribe 1]).1
      1) 1).count 1 = 0 ∧
    obsCount 1 (Dispatch exCaps (Unsubscribe (Unsubscribe
      (run exCaps [Cmd.subscribe 1, Cmd.subscribe 2, Cmd.subscribe 1]).1
      1) 1) ⟨0, 3⟩) = 0 :=
  duplicate_subscription_double_invocation exCaps
    [Cmd.subscribe 1, Cmd.subscribe 2, Cmd.subscribe 1] 1 ⟨0, 3⟩
    (by decide) (by decide)

/-- C7: unsubscribing a handle not present in the collection leaves the
collection exactly unchanged and raises no error. -/
theorem unsubscribe_absent_handle_noop (s : List Handle) (h : Handle)
    (hn : h ∉ s) : Unsubscribe s h = s :=
  unsubscribe_not_mem hn

/-- Witness for C7. -/
theorem unsubscribe_absent_handle_noop_witness :
    Unsubscribe [5, 6] 9 = [5, 6] :=
  unsubscribe_absent_handle_noop [5, 6] 9 (by decide)

/-- C8: Dispatch leaves the subscriber collection exactly unchanged — a
leading Dispatch contributes nothing to the final state, a lone Dispatch
returns the state as-is, and the final state of any call sequence equals that
of the sequence with every Dispatch removed, so no dispatched event is
retained in the manager's state. -/
theorem dispatch_leaves_state_unchanged (caps : Handle → EventType → Bool)
    (cmds : List Cmd) (mObservers : List Handle) (e : Event) :
    (runFrom caps mObservers (Cmd.dispatch e :: cmds)).1 =
      (runFrom caps mObservers cmds).1 ∧
    (runFrom caps mObservers [Cmd.dispatch e]).1 = mObservers ∧
    (run caps cmds).1 = (run caps (cmds.filter Cmd.mutates)).1 :=
  ⟨rfl, rfl, runFrom_fst_filter caps cmds []⟩

/-- C9: for a handle absent from the collection, Subscribe then Unsubscribe is
the identity; when the handle is already present, the pair removes the
earliest occurrence and leaves the new copy at the end, so the order can
differ from the original. -/
theorem subscribe_unsubscribe_roundtrip (s : List Handle) (h : Handle) :
    (h ∉ s → Unsubscribe (Subscribe s h) h = s) ∧
    (∀ a b, s = a ++ h :: b → h ∉ a →
      Unsubscribe (Subscribe s h) h = a ++ (b ++ [h])) := by
  constructor
  · intro hn
    have hu := unsubscribe_first (a := s) (h := h) [] hn
    simpa [Subscribe] using hu
  · intro a b hs hn
    rw [hs, Subscribe]
    have hsplit : (a ++ h :: b) ++ [h] = a ++ h :: (b ++ [h]) := by simp
    rw [hsplit]
    exact unsubscribe_first (b ++ [h]) hn

/-- Witness for C9: round trip on a fresh handle, and order disturbance on an
already-present handle. -/
theorem subscribe_unsubscribe_roundtrip_witness :
    Unsubscribe (Subscribe [2, 3] 1) 1 = [2, 3] ∧
    Unsubscribe (Subscribe [1, 3] 1) 1 = [3, 1] :=
  ⟨(subscribe_unsubscribe_roundtrip [2, 3] 1).1 (by decide),
   (subscribe_unsubscribe_roundtrip [1, 3] 1).2 [] [3] rfl (by decide)⟩

/-- C10: the r-value Dispatch overload merely casts to `const T&` and calls
the const-reference overload, so it performs the identical invocation
sequence with the identical event value and, like the other overload, no
state change. -/
theorem dispatch_rvalue_equiv (caps : Handle → EventType → Bool)
    (mObservers : List Handle) (e : Event) :
    DispatchRValue caps mObservers e = Dispatch caps mObservers e := rfl

end Fay
